import Mathlib

/-!
# Verification of the cardinal FastDDS wrapper

Shallow embedding of the C++ sources of krakjn/cardinal:

* `src/lib/fastdds.cpp` — the Simple* API: `SimpleMessageTypeSupport`
  (serialize / deserialize / calculate_serialized_size),
  `create_simple_publisher`, `destroy_simple_publisher`,
  `receive_simple_message`, `destroy_simple_subscriber`.
* `src/fastdds.cpp` — the HelloWorld variant (fixed 264-byte payload).
* `src/fastdds.h` — the C structs crossing the boundary.

Machine integers are modelled as `Nat` / `Int` with explicit reductions
modulo `2 ^ 32` / `2 ^ 64` where the C code casts.  Byte buffers are
modelled as functions `Nat → Nat` together with an explicit declared
length, and each `memcpy` of the source becomes a `writeBytes` /
`readBytes` step, so that which offsets the code touches is visible.
The host is assumed little-endian: the raw `memcpy` of a `uint32_t` or
`int64_t` value in the source lays its bytes out least significant
first, which is what `u32ToLE` / `u64ToLE` compute.
-/

namespace Cardinal

/-! ## Byte-level memory model -/

/-- Write the bytes of `src` into memory `mem` starting at offset `off`,
one byte per cell, as a `memcpy(mem + off, src, src.length)` does. -/
def writeBytes : (Nat → Nat) → Nat → List Nat → (Nat → Nat)
  | mem, _, [] => mem
  | mem, off, b :: rest => writeBytes (fun i => if i = off then b else mem i) (off + 1) rest

/-- Read `n` bytes from memory `mem` starting at offset `off`. -/
def readBytes (mem : Nat → Nat) (off n : Nat) : List Nat :=
  (List.range n).map (fun i => mem (off + i))

/-- Little-endian value of a byte list: the head is the least
significant byte, as on a little-endian host. -/
def leVal (bs : List Nat) : Nat :=
  bs.foldr (fun b acc => b + 256 * acc) 0

/-- The four bytes of a `uint32_t` value in host (little-endian) order,
as `memcpy` of the value lays them out. -/
def u32ToLE (n : Nat) : List Nat :=
  [n % 256, n / 256 % 256, n / 2 ^ 16 % 256, n / 2 ^ 24 % 256]

/-- The eight bytes of a `uint64_t` value in host (little-endian) order. -/
def u64ToLE (n : Nat) : List Nat :=
  [n % 256, n / 256 % 256, n / 2 ^ 16 % 256, n / 2 ^ 24 % 256,
   n / 2 ^ 32 % 256, n / 2 ^ 40 % 256, n / 2 ^ 48 % 256, n / 2 ^ 56 % 256]

/-- The eight bytes of an `int64_t` value: two's-complement
representation, i.e. the bytes of the value reduced modulo `2 ^ 64`. -/
def i64ToLE (t : Int) : List Nat :=
  u64ToLE (t % (2 ^ 64 : Int)).toNat

/-- Reading eight two's-complement bytes back as an `int64_t`. -/
def i64OfNat (n : Nat) : Int :=
  if n < 2 ^ 63 then (n : Int) else (n : Int) - 2 ^ 64

/-! ## The Simple message codec (src/lib/fastdds.cpp) -/

/-- `SimpleMessageData` (src/lib/fastdds.cpp lines 21-28): a
`std::string` payload — a byte sequence, possibly holding zero
bytes — and an `int64_t` timestamp. -/
structure SimpleMessageData where
  message : List Nat
  timestamp : Int
deriving DecidableEq, Repr

/-- `SerializedPayload_t` as the codec sees it: a byte memory plus the
declared payload length. -/
structure SerializedPayload where
  mem : Nat → Nat
  length : Nat

/-- The first `length` declared bytes of a payload. -/
def payloadBytes (p : SerializedPayload) : List Nat :=
  readBytes p.mem 0 p.length

/-- `max_serialized_type_size = 300` (src/lib/fastdds.cpp line 35):
the transport-facing maximum payload size declared by the type. -/
def max_serialized_type_size : Nat := 300

/-- `SimpleMessageTypeSupport::serialize` (src/lib/fastdds.cpp lines
39-62).  Computes `msg_len` as the `uint32_t` cast of the string
length, reserves `4 + msg_len + 8` bytes, then three `memcpy` steps at
the running position: the length, the `msg_len` string bytes, the
timestamp.  Returns `true` unconditionally — there is no size check of
any kind. -/
def serialize (msg : SimpleMessageData) : Bool × SerializedPayload :=
  let msg_len := msg.message.length % 2 ^ 32
  let m1 := writeBytes (fun _ => 0) 0 (u32ToLE msg_len)
  let m2 := writeBytes m1 4 (msg.message.take msg_len)
  let m3 := writeBytes m2 (4 + msg_len) (i64ToLE msg.timestamp)
  (true, { mem := m3, length := 4 + msg_len + 8 })

/-- `SimpleMessageTypeSupport::deserialize` (src/lib/fastdds.cpp lines
64-86).  Reads the four length bytes at offset 0, copies
`min(msg_len, 255)` text bytes at offset 4 into a 256-byte stack
buffer, null-terminates it, builds the string (which stops at the
first zero byte), advances the position by the full `msg_len`, and
reads the eight timestamp bytes there.  The declared `payload.length`
is never consulted, and `true` is returned unconditionally. -/
def deserialize (p : SerializedPayload) : Bool × SimpleMessageData :=
  let msg_len := leVal (readBytes p.mem 0 4)
  let buffer := readBytes p.mem 4 (min msg_len 255)
  let message := buffer.takeWhile (fun b => b ≠ 0)
  let ts := i64OfNat (leVal (readBytes p.mem (4 + msg_len) 8))
  (true, { message := message, timestamp := ts })

/-- The byte offsets `SimpleMessageTypeSupport::deserialize` reads:
the four header bytes, the copied text bytes, and the eight timestamp
bytes at offset `4 + msg_len`. -/
def deserializeReadOffsets (p : SerializedPayload) : List Nat :=
  let msg_len := leVal (readBytes p.mem 0 4)
  List.range 4 ++ (List.range (min msg_len 255)).map (fun i => 4 + i)
    ++ (List.range 8).map (fun i => 4 + msg_len + i)

/-- `SimpleMessageTypeSupport::calculate_serialized_size`
(src/lib/fastdds.cpp lines 88-91): `sizeof(uint32_t) + length +
sizeof(int64_t)`. -/
def calculate_serialized_size (msg : SimpleMessageData) : Nat :=
  4 + msg.message.length + 8

/-! ## The receive path (src/lib/fastdds.cpp lines 264-285)

The C struct `SimpleMessage` crossing the boundary (declared in the
library header, used at lines 275-277) carries a fixed `char
message[256]` buffer and a `long timestamp`; the 256-byte character
array is modelled as a 256-element byte list. -/

/-- The caller-visible C struct: `char message[256]; long timestamp`. -/
structure SimpleMessage where
  message : List Nat
  timestamp : Int
deriving DecidableEq, Repr

/-- The effect of `strncpy(msg->message, s.c_str(), 255);
msg->message[255] = 0` on the 256-byte destination: the first
`min 255 (length of s up to its first zero byte)` characters, then
zero fill.  `strncpy` stops at the terminator of `s.c_str()` and pads
with zeros, and index 255 is forced to zero. -/
def toBuf256 (s : List Nat) : List Nat :=
  let t := (s.takeWhile (fun b => b ≠ 0)).take 255
  t ++ List.replicate (256 - t.length) 0

/-- `receive_simple_message` (src/lib/fastdds.cpp lines 264-285),
abstracted over its environment: `valid` is whether `wrapper` and
`wrapper->reader` are non-null, and `sample` is what
`read_next_sample` yields (`none` when it does not return
`RETCODE_OK`).  Result: the C `int` status (0 success, -1 otherwise)
and the message written to the caller's buffer, if any. -/
def receive_simple_message (valid : Bool) (sample : Option SimpleMessageData) :
    Int × Option SimpleMessage :=
  if valid = false then (-1, none)
  else
    match sample with
    | some d => (0, some { message := toBuf256 d.message, timestamp := d.timestamp })
    | none => (-1, none)

/-- The full subscribe-side pipeline for one delivered payload: the
transport hands the raw bytes to `SimpleMessageTypeSupport::deserialize`
inside `read_next_sample`, and `receive_simple_message` copies the
resulting sample into the caller's struct.  `deserialize` never
reports failure, so the sample is always delivered. -/
def receiveFromPayload (p : SerializedPayload) : Int × Option SimpleMessage :=
  let (ok, d) := deserialize p
  receive_simple_message true (if ok then some d else none)

/-! ## Lifecycle: acquisition (src/lib/fastdds.cpp lines 130-182, 210-262) -/

/-- The transport resources the open/close code touches, named after
the spec steps: `group` is the DDS `Publisher` / `Subscriber` object,
`endpoint` the `DataWriter` / `DataReader`. -/
inductive Res
  | participant
  | typeReg
  | topic
  | group
  | endpoint
deriving DecidableEq, Repr

/-- Resources released by `delete wrapper` on the failure paths of
`create_simple_publisher` / `create_simple_subscriber` (lines 148,
157, 165, 173 and the subscriber twins): the wrapper struct has no
destructor logic of its own, so deleting it frees the struct memory
and drops the local `TypeSupport` reference but releases no transport
resource — not the participant, not the type registration, not the
topic, not the group. -/
def deleteWrapperReleases : List Res := []

/-- Outcome of one `create_simple_publisher` /
`create_simple_subscriber` attempt: the returned handle (if any), the
transport resources acquired during the attempt in order, and the
resources released before returning. -/
structure OpenAttempt where
  handle : Option (List Res)
  acquired : List Res
  released : List Res
deriving DecidableEq, Repr

/-- `create_simple_publisher` (src/lib/fastdds.cpp lines 130-182),
abstracted over which acquisition step the transport lets succeed.
The source acquires, in order: participant (line 133), type
registration (146), topic (153), publisher group (162), writer
endpoint (170).  On the first failure it prints a message, runs
`delete wrapper` — which releases nothing, see
`deleteWrapperReleases` — and returns `nullptr`.
`create_simple_subscriber` (lines 210-262) is step-for-step
identical with subscriber and reader in place of publisher and
writer, so this definition covers both. -/
def create_simple_publisher (env : Res → Bool) : OpenAttempt :=
  if env .participant = false then
    { handle := none, acquired := [], released := [] }
  else if env .typeReg = false then
    { handle := none, acquired := [.participant],
      released := deleteWrapperReleases }
  else if env .topic = false then
    { handle := none, acquired := [.participant, .typeReg],
      released := deleteWrapperReleases }
  else if env .group = false then
    { handle := none, acquired := [.participant, .typeReg, .topic],
      released := deleteWrapperReleases }
  else if env .endpoint = false then
    { handle := none, acquired := [.participant, .typeReg, .topic, .group],
      released := deleteWrapperReleases }
  else
    { handle := some [.participant, .typeReg, .topic, .group, .endpoint],
      acquired := [.participant, .typeReg, .topic, .group, .endpoint],
      released := [] }

/-! ## Lifecycle: teardown (src/lib/fastdds.cpp lines 199-208, 287-296) -/

/-- The wrapper struct behind a handle: which of its four transport
pointers are non-null.  Field names follow the publisher wrapper; the
subscriber wrapper substitutes subscriber for publisher and reader
for writer. -/
structure SimplePublisherWrapper where
  participant : Bool
  publisher : Bool
  topic : Bool
  writer : Bool
deriving DecidableEq, Repr

/-- The release sequence performed by the body of
`destroy_simple_publisher` on a live wrapper (lines 202-205): writer,
then topic, then publisher group, then participant, each guarded by a
null check on that pointer.  `destroy_simple_subscriber` (lines
290-293) is identical with reader and subscriber in place of writer
and publisher. -/
def destroyReleases (w : SimplePublisherWrapper) : List Res :=
  (if w.writer then [Res.endpoint] else [])
    ++ (if w.topic then [Res.topic] else [])
    ++ (if w.publisher then [Res.group] else [])
    ++ (if w.participant then [Res.participant] else [])

/-- Allocation state of the wrapper memory a handle points to:
either still live, or already freed by a previous
`destroy_simple_publisher` (whose final `delete wrapper` leaves every
copy of the pointer dangling). -/
inductive Cell
  | live (w : SimplePublisherWrapper)
  | dangling
deriving DecidableEq, Repr

/-- What one `destroy_simple_publisher` call does. -/
inductive CloseCall
  | noop
  | freed (released : List Res)
  | useAfterFree
deriving DecidableEq, Repr

/-- `destroy_simple_publisher` (src/lib/fastdds.cpp lines 199-208) as
a step on the allocation state.  A null handle fails the `if
(wrapper)` test and nothing happens.  A live handle runs the four
guarded releases and then `delete wrapper`, leaving the memory freed.
A dangling handle still passes the `if (wrapper)` test and the body
reads freed memory — undefined behavior, recorded as
`useAfterFree`. -/
def destroy_simple_publisher : Option Cell → CloseCall × Option Cell
  | none => (.noop, none)
  | some (.live w) => (.freed (destroyReleases w), some .dangling)
  | some .dangling => (.useAfterFree, some .dangling)

/-! ## Helper lemmas about the memory model -/

theorem writeBytes_lt (src : List Nat) (mem : Nat → Nat) (off i : Nat) (h : i < off) :
    writeBytes mem off src i = mem i := by
  induction src generalizing mem off with
  | nil => rfl
  | cons b rest ih =>
      simp only [writeBytes]
      rw [ih _ (off + 1) (by omega)]
      simp [Nat.ne_of_lt h]

theorem readBytes_length (mem : Nat → Nat) (off n : Nat) :
    (readBytes mem off n).length = n := by
  simp [readBytes]

theorem readBytes_succ (mem : Nat → Nat) (off n : Nat) :
    readBytes mem off (n + 1) = mem off :: readBytes mem (off + 1) n := by
  unfold readBytes
  rw [List.range_succ_eq_map, List.map_cons, List.map_map]
  refine congrArg₂ _ (by simp) ?_
  apply List.map_congr_left
  intro i _
  show mem (off + (i + 1)) = mem (off + 1 + i)
  congr 1
  omega

theorem readBytes_writeBytes (src : List Nat) (mem : Nat → Nat) (off : Nat) :
    readBytes (writeBytes mem off src) off src.length = src := by
  induction src generalizing mem off with
  | nil => simp [readBytes]
  | cons b rest ih =>
      simp only [writeBytes, List.length_cons, readBytes_succ]
      rw [writeBytes_lt rest _ (off + 1) off (by omega), ih]
      simp

theorem readBytes_writeBytes_of_le (src : List Nat) (mem : Nat → Nat)
    (off hi n : Nat) (h : hi + n ≤ off) :
    readBytes (writeBytes mem off src) hi n = readBytes mem hi n := by
  simp only [readBytes]
  apply List.map_congr_left
  intro i hi2
  rw [List.mem_range] at hi2
  exact writeBytes_lt src mem off _ (by omega)

theorem readBytes_add (mem : Nat → Nat) (off a b : Nat) :
    readBytes mem off (a + b) = readBytes mem off a ++ readBytes mem (off + a) b := by
  simp [readBytes, List.range_add, List.map_map, Function.comp, Nat.add_assoc]

/-! ## Helper lemmas about the integer encodings -/

theorem leVal_u32ToLE (n : Nat) (h : n < 2 ^ 32) : leVal (u32ToLE n) = n := by
  simp only [leVal, u32ToLE, List.foldr_cons, List.foldr_nil]
  omega

theorem leVal_u64ToLE (n : Nat) (h : n < 2 ^ 64) : leVal (u64ToLE n) = n := by
  simp only [leVal, u64ToLE, List.foldr_cons, List.foldr_nil]
  omega

theorem emod_two_pow_toNat_lt (t : Int) : (t % (2 ^ 64 : Int)).toNat < 2 ^ 64 := by
  have h1 : t % (2 ^ 64 : Int) < 2 ^ 64 := Int.emod_lt_of_pos t (by norm_num)
  omega

theorem i64OfNat_emod (t : Int) (hlo : -(2 ^ 63) ≤ t) (hhi : t < 2 ^ 63) :
    i64OfNat (t % (2 ^ 64 : Int)).toNat = t := by
  have h0 : (0 : Int) ≤ t % (2 ^ 64 : Int) := Int.emod_nonneg t (by norm_num)
  have h1 : t % (2 ^ 64 : Int) < 2 ^ 64 := Int.emod_lt_of_pos t (by norm_num)
  have h2 : t % (2 ^ 64 : Int) = t ∨ t % (2 ^ 64 : Int) = t + 2 ^ 64 := by
    rcases le_or_lt 0 t with hpos | hneg
    · left
      exact Int.emod_eq_of_lt hpos (by omega)
    · right
      have : (t + 2 ^ 64) % (2 ^ 64 : Int) = t % (2 ^ 64 : Int) :=
        Int.add_mul_emod_self_left (a := t) (b := 2 ^ 64) (c := 1) ▸ by ring_nf
      rw [← this, Int.emod_eq_of_lt (by omega) (by omega)]
  unfold i64OfNat
  rcases h2 with h | h <;> rw [h] <;> split <;> omega

theorem takeWhile_ne_zero_eq_self (l : List Nat) (h : ∀ b ∈ l, b ≠ 0) :
    l.takeWhile (fun b => b ≠ 0) = l := by
  induction l with
  | nil => rfl
  | cons a rest ih =>
      have ha : a ≠ 0 := h a (List.mem_cons_self a rest)
      have hrest := ih fun b hb => h b (List.mem_cons_of_mem a hb)
      simp [List.takeWhile_cons, ha, hrest]
      intro b hb
      exact h b (List.mem_cons_of_mem a hb)

/-! ## Shared facts about the bytes `serialize` writes -/

theorem serialize_mem_header (m : SimpleMessageData) (h : m.message.length < 2 ^ 32) :
    readBytes (serialize m).2.mem 0 4 = u32ToLE m.message.length := by
  have hmod : m.message.length % 2 ^ 32 = m.message.length := Nat.mod_eq_of_lt h
  simp only [serialize, hmod]
  rw [readBytes_writeBytes_of_le (i64ToLE m.timestamp) _ (4 + m.message.length) 0 4 (by omega),
    readBytes_writeBytes_of_le (m.message.take m.message.length) _ 4 0 4 (by omega)]
  simpa using readBytes_writeBytes (u32ToLE m.message.length) (fun _ => 0) 0

theorem serialize_mem_text (m : SimpleMessageData) (h : m.message.length < 2 ^ 32) :
    readBytes (serialize m).2.mem 4 m.message.length = m.message := by
  have hmod : m.message.length % 2 ^ 32 = m.message.length := Nat.mod_eq_of_lt h
  simp only [serialize, hmod]
  rw [readBytes_writeBytes_of_le (i64ToLE m.timestamp) _ (4 + m.message.length) 4
    m.message.length (by omega)]
  simp only [List.take_length]
  exact readBytes_writeBytes m.message _ 4

theorem serialize_mem_ts (m : SimpleMessageData) (h : m.message.length < 2 ^ 32) :
    readBytes (serialize m).2.mem (4 + m.message.length) 8 = i64ToLE m.timestamp := by
  have hmod : m.message.length % 2 ^ 32 = m.message.length := Nat.mod_eq_of_lt h
  simp only [serialize, hmod]
  simpa [i64ToLE, u64ToLE] using
    readBytes_writeBytes (i64ToLE m.timestamp) _ (4 + m.message.length)

theorem serialize_length_eq (m : SimpleMessageData) (h : m.message.length < 2 ^ 32) :
    (serialize m).2.length = 4 + m.message.length + 8 := by
  have hmod : m.message.length % 2 ^ 32 = m.message.length := Nat.mod_eq_of_lt h
  simp [serialize, hmod]
  omega

/-! ## Helper lemmas about the 256-byte caller buffer -/

theorem toBuf256_length (s : List Nat) : (toBuf256 s).length = 256 := by
  have h : ((s.takeWhile (fun b => b ≠ 0)).take 255).length ≤ 255 := by
    rw [List.length_take]
    exact Nat.min_le_left _ _
  simp only [toBuf256, List.length_append, List.length_replicate]
  omega

theorem getD_replicate_zero (k i : Nat) : (List.replicate k 0).getD i 0 = 0 := by
  induction k generalizing i with
  | zero => simp [List.getD]
  | succ n ih =>
      cases i with
      | zero => simp [List.replicate]
      | succ j => simp [List.replicate, ih j]

theorem toBuf256_getD_255 (s : List Nat) : (toBuf256 s).getD 255 0 = 0 := by
  have h : ((s.takeWhile (fun b => b ≠ 0)).take 255).length ≤ 255 := by
    rw [List.length_take]
    exact Nat.min_le_left _ _
  simp only [toBuf256]
  rw [List.getD_append_right _ _ _ _ h]
  exact getD_replicate_zero _ _

/-! ## Claim theorems -/

/-- C1: the claim says that when acquisition step k of
`create_simple_publisher` / `create_simple_subscriber` fails, every
resource of steps 1..k-1 is released exactly once in reverse order
before the open error is returned.  The code does not do this: when
`create_topic` fails at step 3 (participant created, type
registered), the failure path runs only `delete wrapper` and returns
`nullptr` — no handle escapes, but the released list is empty, not
the reverse of the acquired list, and in particular the participant
is leaked. -/
theorem open_failure_releases_nothing :
    (create_simple_publisher (fun r => r != Res.topic)).handle = none ∧
    (create_simple_publisher (fun r => r != Res.topic)).acquired
      = [Res.participant, Res.typeReg] ∧
    (create_simple_publisher (fun r => r != Res.topic)).released = [] ∧
    (create_simple_publisher (fun r => r != Res.topic)).released
      ≠ ((create_simple_publisher (fun r => r != Res.topic)).acquired).reverse ∧
    Res.participant ∉ (create_simple_publisher (fun r => r != Res.topic)).released := by
  decide

/-- C2: the claim says `decode` fails with `Malformed` on buffers
shorter than 12 bytes, fails with `Truncated` when the length prefix
does not fit the remaining buffer, and never reads past the declared
length.  `SimpleMessageTypeSupport::deserialize` does none of this:
on a 12-byte payload declaring a text length of 100 it returns
success and reads offset 111, far past the declared length 12, and on
a 4-byte payload (shorter than any header) it returns success and
reads offset 11 past the declared length 4.  There is no check and no
error value in the code at all. -/
theorem deserialize_trusts_length_unchecked :
    (deserialize ⟨fun i => List.getD [100, 0, 0, 0, 1, 2, 3, 4, 5, 6, 7, 8] i 0, 12⟩).1
      = true ∧
    111 ∈ deserializeReadOffsets
      ⟨fun i => List.getD [100, 0, 0, 0, 1, 2, 3, 4, 5, 6, 7, 8] i 0, 12⟩ ∧
    (deserialize ⟨fun i => List.getD [0, 0, 0, 0] i 0, 4⟩).1 = true ∧
    11 ∈ deserializeReadOffsets ⟨fun i => List.getD [0, 0, 0, 0] i 0, 4⟩ := by
  decide

/-- C3 counterexample: the claim asserts `decode (encode m) = m` for
every message whose text is at most the maximum payload size.  It
fails for a text holding an interior zero byte: the message
`{text := [104, 0]}` is well within bounds, but `deserialize`
rebuilds the text through a C string, which stops at the first zero
byte, so only `[104]` comes back. -/
theorem roundtrip_fails_on_interior_nul :
    (⟨[104, 0], 0⟩ : SimpleMessageData).message.length ≤ 255 ∧
    deserialize (serialize (⟨[104, 0], 0⟩ : SimpleMessageData)).2
      ≠ (true, ⟨[104, 0], 0⟩) ∧
    (deserialize (serialize (⟨[104, 0], 0⟩ : SimpleMessageData)).2).2.message = [104] := by
  decide

/-- C3 amended: for every message whose text is at most 255 bytes and
holds no zero byte, and whose timestamp fits `int64_t`,
deserializing the serialized payload returns the message unchanged
(and reports success). -/
theorem decode_encode_roundtrip (m : SimpleMessageData)
    (hlen : m.message.length ≤ 255) (hnz : ∀ b ∈ m.message, b ≠ 0)
    (hlo : -(2 ^ 63) ≤ m.timestamp) (hhi : m.timestamp < 2 ^ 63) :
    deserialize (serialize m).2 = (true, m) := by
  have h32 : m.message.length < 2 ^ 32 := by omega
  simp only [deserialize]
  rw [serialize_mem_header m h32, leVal_u32ToLE _ (by omega),
    Nat.min_eq_left hlen, serialize_mem_text m h32,
    takeWhile_ne_zero_eq_self _ hnz, serialize_mem_ts m h32]
  simp only [i64ToLE]
  rw [leVal_u64ToLE _ (emod_two_pow_toNat_lt m.timestamp),
    i64OfNat_emod m.timestamp hlo hhi]

/-- C3 witness: the round trip at the concrete message
`{text := "hello", timestamp := 1000}`. -/
theorem decode_encode_roundtrip_witness :
    deserialize (serialize (⟨[104, 101, 108, 108, 111], 1000⟩ : SimpleMessageData)).2
      = (true, ⟨[104, 101, 108, 108, 111], 1000⟩) :=
  decode_encode_roundtrip ⟨[104, 101, 108, 108, 111], 1000⟩
    (by decide) (by decide) (by decide) (by decide)

set_option maxRecDepth 4000 in
/-- C4: the claim says `try_receive` returns `CorruptPayload` when
the payload fails decode, never success with a garbage message.  The
code cannot do this: `deserialize` has no failure case, so on the
truncated payload of 12 bytes declaring 100 text bytes the receive
path returns status 0 (success) and hands the caller a message
assembled from whatever bytes the out-of-bounds reads produced. -/
theorem receive_delivers_truncated_payload_as_success :
    (receiveFromPayload
      ⟨fun i => List.getD [100, 0, 0, 0, 1, 2, 3, 4, 5, 6, 7, 8] i 0, 12⟩).1 = 0 ∧
    ((receiveFromPayload
      ⟨fun i => List.getD [100, 0, 0, 0, 1, 2, 3, 4, 5, 6, 7, 8] i 0, 12⟩).2.map
        (fun msg => msg.message))
      = some ([1, 2, 3, 4, 5, 6, 7, 8] ++ List.replicate 248 0) := by
  decide

set_option maxRecDepth 4000 in
/-- C5: the claim says `encode` fails with `PayloadTooLarge` whenever
the text exceeds the transport maximum.  `serialize` has no size
check: for a 300-byte text the serialized size 312 exceeds the
declared `max_serialized_type_size` of 300, yet `serialize` returns
`true` and writes all 312 bytes. -/
theorem serialize_accepts_oversized_payload :
    calculate_serialized_size ⟨List.replicate 300 97, 0⟩ = 312 ∧
    max_serialized_type_size < 312 ∧
    (serialize (⟨List.replicate 300 97, 0⟩ : SimpleMessageData)).1 = true ∧
    (serialize (⟨List.replicate 300 97, 0⟩ : SimpleMessageData)).2.length = 312 := by
  decide

/-- C6: for every message whose text length fits `uint32_t`, the
serialized payload is exactly the 4 little-endian length bytes, the
raw text bytes, and the 8 little-endian timestamp bytes — `4 + len +
8` bytes, no padding; and at `{text := "hello", timestamp := 1000}`
the payload is the 17 bytes `05 00 00 00 68 65 6c 6c 6f e8 03 00 00
00 00 00 00`, which deserializes back to the original message. -/
theorem serialize_wire_format :
    (∀ m : SimpleMessageData, m.message.length < 2 ^ 32 →
      payloadBytes (serialize m).2
        = u32ToLE m.message.length ++ m.message ++ i64ToLE m.timestamp ∧
      (serialize m).2.length = 4 + m.message.length + 8) ∧
    payloadBytes (serialize (⟨[104, 101, 108, 108, 111], 1000⟩ : SimpleMessageData)).2
      = [5, 0, 0, 0, 104, 101, 108, 108, 111, 232, 3, 0, 0, 0, 0, 0, 0] ∧
    deserialize (serialize (⟨[104, 101, 108, 108, 111], 1000⟩ : SimpleMessageData)).2
      = (true, ⟨[104, 101, 108, 108, 111], 1000⟩) := by
  refine ⟨fun m h32 => ⟨?_, serialize_length_eq m h32⟩, by decide, by decide⟩
  have hsplit : 4 + m.message.length + 8 = 4 + (m.message.length + 8) := by omega
  show readBytes (serialize m).2.mem 0 (serialize m).2.length = _
  rw [serialize_length_eq m h32, hsplit, readBytes_add, readBytes_add]
  simp only [Nat.zero_add]
  rw [serialize_mem_header m h32, serialize_mem_text m h32, serialize_mem_ts m h32,
    List.append_assoc]

/-- C6 witness: the wire-format equation instantiated at
`{text := "hello", timestamp := 1000}`, whose length discharges the
`uint32_t` bound. -/
theorem serialize_wire_format_witness :
    payloadBytes (serialize (⟨[104, 101, 108, 108, 111], 1000⟩ : SimpleMessageData)).2
      = u32ToLE (⟨[104, 101, 108, 108, 111], 1000⟩ : SimpleMessageData).message.length
        ++ (⟨[104, 101, 108, 108, 111], 1000⟩ : SimpleMessageData).message
        ++ i64ToLE (⟨[104, 101, 108, 108, 111], 1000⟩ : SimpleMessageData).timestamp :=
  (serialize_wire_format.1 ⟨[104, 101, 108, 108, 111], 1000⟩ (by decide)).1

/-- C7 counterexample: the claim calls the close order the strict
reverse of acquisition.  Acquisition (create_simple_publisher lines
133-170) is participant, type registration, topic, group, endpoint,
so the reverse release order of the four releasable resources would
be endpoint, group, topic, participant — but
`destroy_simple_publisher` releases endpoint, topic, group,
participant (lines 202-205), with topic and group swapped. -/
theorem close_order_not_reverse_of_acquisition :
    destroyReleases ⟨true, true, true, true⟩
      ≠ ((create_simple_publisher (fun _ => true)).acquired.filter
          (fun r => r != Res.typeReg)).reverse := by
  decide

/-- C7 amended: `close` releases in the fixed order endpoint, then
topic, then group, then participant — each at most once, skipping
exactly the null steps, and whenever the participant is present it is
released last, after every topic and endpoint it owns.  This order is
not the strict reverse of acquisition (see the counterexample), but
the containment invariant holds. -/
theorem close_release_order :
    (∀ pa pu tp wr : Bool,
      List.Sublist (destroyReleases ⟨pa, pu, tp, wr⟩)
        [Res.endpoint, Res.topic, Res.group, Res.participant] ∧
      (destroyReleases ⟨pa, pu, tp, wr⟩).Nodup ∧
      (Res.endpoint ∈ destroyReleases ⟨pa, pu, tp, wr⟩ ↔ wr = true) ∧
      (Res.topic ∈ destroyReleases ⟨pa, pu, tp, wr⟩ ↔ tp = true) ∧
      (Res.group ∈ destroyReleases ⟨pa, pu, tp, wr⟩ ↔ pu = true) ∧
      (Res.participant ∈ destroyReleases ⟨pa, pu, tp, wr⟩ ↔ pa = true) ∧
      (pa = true →
        (destroyReleases ⟨pa, pu, tp, wr⟩).getLast? = some Res.participant)) ∧
    destroyReleases ⟨true, true, true, true⟩
      = [Res.endpoint, Res.topic, Res.group, Res.participant] := by
  decide

/-- C7 witness: the release-order theorem applied to the fully
constructed wrapper, discharging its presence hypothesis: the
participant is the last resource released. -/
theorem close_release_order_witness :
    (destroyReleases ⟨true, true, true, true⟩).getLast? = some Res.participant :=
  (close_release_order.1 true true true true).2.2.2.2.2.2 rfl

/-- C8 counterexample: the claim says the empty-queue result of
`try_receive` is distinguishable from an error.  It is not: an open
subscriber with no sample and a null (faulted) handle produce the
very same result, status -1 with no message. -/
theorem empty_queue_result_equals_fault_result :
    receive_simple_message true none = receive_simple_message false none := by
  decide

/-- C8 amended: `try_receive` on an open subscriber with no available
sample returns status -1 and no message — the empty queue does not
crash and delivers nothing — but -1 is also the status for a null
handle, so the empty case is not distinguishable from a fault by the
return value. -/
theorem receive_empty_returns_no_data :
    receive_simple_message true none = (-1, none) ∧
    receive_simple_message false none = (-1, none) := by
  decide

/-- C9 counterexample: the claim says a second `close` on the same
handle is a no-op.  After the first close deletes the wrapper, the
caller's pointer dangles; the second call still passes the null
check and dereferences freed memory — a use-after-free, not a
no-op. -/
theorem double_close_use_after_free :
    (destroy_simple_publisher (some (Cell.live ⟨true, true, true, true⟩))).1
      = CloseCall.freed [Res.endpoint, Res.topic, Res.group, Res.participant] ∧
    (destroy_simple_publisher
      (destroy_simple_publisher (some (Cell.live ⟨true, true, true, true⟩))).2).1
      = CloseCall.useAfterFree := by
  decide

/-- C9 amended: `close` on a null or never-opened handle is a no-op,
and a single `close` on a live handle releases its resources and
frees it; but a second `close` on the same handle is a use-after-free
on the dangling pointer, not a no-op. -/
theorem close_null_noop_single_close_safe :
    destroy_simple_publisher none = (CloseCall.noop, none) ∧
    ∀ w : SimplePublisherWrapper,
      destroy_simple_publisher (some (Cell.live w))
        = (CloseCall.freed (destroyReleases w), some Cell.dangling) ∧
      (destroy_simple_publisher
        (destroy_simple_publisher (some (Cell.live w))).2).1
        = CloseCall.useAfterFree :=
  ⟨rfl, fun _ => ⟨rfl, rfl⟩⟩

/-- C10: for every payload, whatever the declared length prefix,
`deserialize` reports success and delivers a text of at most 255
bytes, and the receive path copies it into the caller's fixed
256-byte buffer, which is null-terminated at index 255; oversized
text is silently cut, never rejected. -/
theorem receive_text_truncated_and_null_terminated (p : SerializedPayload) :
    (deserialize p).1 = true ∧
    (deserialize p).2.message.length ≤ 255 ∧
    (receiveFromPayload p).1 = 0 ∧
    (receiveFromPayload p).2
      = some ⟨toBuf256 (deserialize p).2.message, (deserialize p).2.timestamp⟩ ∧
    (toBuf256 (deserialize p).2.message).length = 256 ∧
    (toBuf256 (deserialize p).2.message).getD 255 0 = 0 := by
  refine ⟨rfl, ?_, rfl, rfl, toBuf256_length _, toBuf256_getD_255 _⟩
  simp only [deserialize]
  refine le_trans ((List.takeWhile_sublist _).length_le) ?_
  rw [readBytes_length]
  exact Nat.min_le_right _ _

end Cardinal
